import Mathlib

/-
Verification development for the StyleAI hairstyle-consulting web client.

The development is a shallow embedding of the client's core logic:
  * `src/App.tsx` — the flow controller: app state, image buffer, selection
    set, generated images, and the handlers `startCamera`, `stopCamera`,
    `capturePhoto`, `retakePhoto`, `resetApp`, `performAnalysis`,
    `toggleSelection`, `generateSelected`, and the download-filename
    derivation at the call site in `renderResults`.
  * `src/services/geminiService.ts` — the remote clients `getAiClient`,
    `analyzeFace`, `generateHairstyleImage`.

React `useState` cells become fields of an explicit state record; each
handler becomes a function on that record.  Asynchronous handlers are split
into their synchronous initiation (up to the `await`) and their resolution
continuations; remote calls are represented by oracle arguments and by an
explicit log of issued requests, so that "no network call is made" and
"exactly n calls are issued" are provable statements.
-/

namespace StyleAI

/-- The `AppState` enum of `src/types.ts`. -/
inductive AppState where
  | IDLE
  | CAMERA
  | PREVIEW
  | ANALYZING
  | SELECTION
  | GENERATING
  | RESULTS
  | ERROR
deriving DecidableEq, Repr

/-- The `HairstyleSuggestion` interface of `src/types.ts`. -/
structure HairstyleSuggestion where
  name : String
  description : String
  reasoning : String
deriving DecidableEq, Repr

/-- The `AnalysisResult` interface of `src/types.ts`. -/
structure AnalysisResult where
  faceShape : String
  suggestions : List HairstyleSuggestion
deriving DecidableEq, Repr

/-- The `GeneratedImage` interface of `src/types.ts`. -/
structure GeneratedImage where
  hairstyleName : String
  imageUrl : String
deriving DecidableEq, Repr

/-- The flow controller's state: the `useState` cells of the `App` component
in `src/App.tsx`, plus `streamHeld` for the `streamRef` camera handle
(`true` when a `MediaStream` is held). -/
structure AppSt where
  appState : AppState
  capturedImages : List String
  captureStep : Nat
  analysisResult : Option AnalysisResult
  selectedIndices : List Nat
  generatedImages : List GeneratedImage
  errorMsg : Option String
  streamHeld : Bool
deriving DecidableEq, Repr

/-- The initial state of the component: every cell at its `useState`
initialiser (`src/App.tsx` lines 9-23). -/
def initialAppSt : AppSt :=
  { appState := .IDLE
    capturedImages := []
    captureStep := 0
    analysisResult := none
    selectedIndices := []
    generatedImages := []
    errorMsg := none
    streamHeld := false }

/-- `stopCamera` (`src/App.tsx` lines 46-51): stops every track of the held
stream, if any, and drops the handle. -/
def stopCamera (st : AppSt) : AppSt :=
  { st with streamHeld := false }

/-- `resetApp` (`src/App.tsx` lines 94-102): clears the image buffer, the
capture step, the analysis result, the generated images and the selection,
returns to `IDLE`, and stops the camera.  Note that `errorMsg` is not
touched. -/
def resetApp (st : AppSt) : AppSt :=
  stopCamera
    { st with
      capturedImages := []
      captureStep := 0
      analysisResult := none
      generatedImages := []
      selectedIndices := []
      appState := .IDLE }

/-- The synchronous prefix of `startCamera` (`src/App.tsx` lines 27-38): it
sets the state to `CAMERA` and clears the capture step and image buffer
before awaiting `getUserMedia`. -/
def startCameraInit (st : AppSt) : AppSt :=
  { st with appState := .CAMERA, captureStep := 0, capturedImages := [] }

/-- The success continuation of `startCamera`: `getUserMedia` resolved, the
stream is stored in `streamRef`. -/
def startCameraResolve (st : AppSt) : AppSt :=
  { st with streamHeld := true }

/-- The failure continuation of `startCamera` (`src/App.tsx` lines 39-43):
an error message is recorded and the state becomes `ERROR`. -/
def startCameraReject (st : AppSt) : AppSt :=
  { st with
    errorMsg := some "Could not access camera. Please ensure permissions are granted."
    appState := .ERROR }

/-- `capturePhoto` (`src/App.tsx` lines 53-84) with the freshly sampled
frame (`canvas.toDataURL` result) passed in as `frame`.  The frame is
appended to the buffer; when the buffer reaches 3 images the camera is
stopped and the state becomes `PREVIEW`, otherwise the capture step
advances. -/
def capturePhoto (frame : String) (st : AppSt) : AppSt :=
  if (st.capturedImages ++ [frame]).length = 3 then
    stopCamera
      { st with capturedImages := st.capturedImages ++ [frame], appState := .PREVIEW }
  else
    { st with
      capturedImages := st.capturedImages ++ [frame]
      captureStep := st.captureStep + 1 }

/-- `retakePhoto` (`src/App.tsx` lines 86-92): clears the buffer, step,
analysis result and generated images, then runs the synchronous prefix of
`startCamera`. -/
def retakePhoto (st : AppSt) : AppSt :=
  startCameraInit
    { st with
      capturedImages := []
      captureStep := 0
      analysisResult := none
      generatedImages := [] }

/-- The synchronous prefix of `performAnalysis` (`src/App.tsx` lines
106-112): a guard returns immediately when the buffer is empty; otherwise
the state becomes `ANALYZING` and one `analyzeFace` request carrying the
buffered images is issued.  The second component is the list of issued
analysis requests (each request is the list of images it carries). -/
def performAnalysisInit (st : AppSt) : AppSt × List (List String) :=
  if st.capturedImages.length = 0 then (st, [])
  else ({ st with appState := .ANALYZING }, [st.capturedImages])

/-- The success continuation of `performAnalysis` (`src/App.tsx` lines
113-115): stores the analysis, clears the selection, moves to `SELECTION`.
It performs no staleness check before mutating state. -/
def performAnalysisResolve (analysis : AnalysisResult) (st : AppSt) : AppSt :=
  { st with
    analysisResult := some analysis
    selectedIndices := []
    appState := .SELECTION }

/-- The failure continuation of `performAnalysis` (`src/App.tsx` lines
116-120): records the message and moves to `ERROR`. -/
def performAnalysisReject (msg : String) (st : AppSt) : AppSt :=
  { st with errorMsg := some msg, appState := .ERROR }

/-- `toggleSelection` (`src/App.tsx` lines 123-132), as the pure updater
passed to `setSelectedIndices`: removes the index if present; otherwise
appends it unless two indices are already selected. -/
def toggleSelection (index : Nat) (prev : List Nat) : List Nat :=
  if prev.contains index then
    prev.filter (fun i => i ≠ index)
  else if prev.length ≥ 2 then
    prev
  else
    prev ++ [index]

/-- JavaScript's `Array.prototype.filter` with an index-aware callback,
specialised to a membership test: `filterByIndex keep l i` keeps the
elements of `l` whose position (counting from `i`) satisfies `keep`.  Used
to embed `suggestions.filter((_, idx) => selectedIndices.includes(idx))`
(`src/App.tsx` line 142). -/
def filterByIndex {α : Type} (keep : Nat → Bool) : List α → Nat → List α
  | [], _ => []
  | a :: rest, i =>
    if keep i then a :: filterByIndex keep rest (i + 1)
    else filterByIndex keep rest (i + 1)

/-- The selected suggestions of `generateSelected` (`src/App.tsx` line 142):
the suggestions whose index belongs to the selection, in suggestion-index
order. -/
def selectedSuggestionsOf (suggestions : List HairstyleSuggestion)
    (sel : List Nat) : List HairstyleSuggestion :=
  filterByIndex (fun i => sel.contains i) suggestions 0

/-- `Promise.all` over settled outcomes: succeeds with the list of values
when every promise fulfilled, and rejects when any promise rejected
(`src/App.tsx` line 150). -/
def promiseAll {α : Type} : List (Except String α) → Except String (List α)
  | [] => .ok []
  | .ok a :: rest => (promiseAll rest).map (fun l => a :: l)
  | .error e :: _ => .error e

/-- The whole of `generateSelected` (`src/App.tsx` lines 134-159), with the
remote render client abstracted as an oracle `render` mapping the front
image, a hairstyle name and its description to the outcome of
`generateHairstyleImage`.  Returns the final state together with the number
of render calls issued.  All calls are issued up front (the promises are
created by `map` before `Promise.all` awaits them); on joint success the
generated images replace the collection and the state becomes `RESULTS`; on
any rejection the state becomes `ERROR` and the collection is untouched. -/
def generateSelectedRun
    (render : String → String → String → Except String String)
    (st : AppSt) : AppSt × Nat :=
  match st.analysisResult with
  | none => (st, 0)
  | some ar =>
    if st.selectedIndices.length = 0 then (st, 0)
    else
      let st1 := { st with appState := AppState.GENERATING }
      let frontImage := st.capturedImages.headD ""
      let selected := selectedSuggestionsOf ar.suggestions st.selectedIndices
      let outcomes := selected.map (fun s =>
        (render frontImage s.name s.description).map
          (fun url => ({ hairstyleName := s.name, imageUrl := url } : GeneratedImage)))
      match promiseAll outcomes with
      | .ok images =>
        ({ st1 with generatedImages := images, appState := .RESULTS }, selected.length)
      | .error e =>
        ({ st1 with errorMsg := some e, appState := .ERROR }, selected.length)

/-- The state-only effect of starting `generateSelected` (`src/App.tsx`
lines 134-138): the guard returns unchanged when no analysis result is
present or the selection is empty; otherwise the state becomes
`GENERATING`. -/
def generateSelectedInit (st : AppSt) : AppSt :=
  match st.analysisResult with
  | none => st
  | some _ =>
    if st.selectedIndices.length = 0 then st
    else { st with appState := .GENERATING }

/-- The success continuation of `generateSelected` (`src/App.tsx` lines
150-152): the joined images replace the collection and the state becomes
`RESULTS`. -/
def generateSelectedResolve (images : List GeneratedImage) (st : AppSt) : AppSt :=
  { st with generatedImages := images, appState := .RESULTS }

/-- The failure continuation of `generateSelected` (`src/App.tsx` lines
154-158). -/
def generateSelectedReject (msg : String) (st : AppSt) : AppSt :=
  { st with errorMsg := some msg, appState := .ERROR }

/-- The environment visible to `getAiClient`
(`src/services/geminiService.ts`): `process.env.API_KEY` and
`import.meta.env.VITE_API_KEY`.  `none` stands for an unset variable. -/
structure ServiceEnv where
  apiKey : Option String
  viteApiKey : Option String
deriving DecidableEq, Repr

/-- JavaScript truthiness of an environment string: an unset variable and
the empty string are both falsy, so both fail the `process.env.API_KEY`
guard. -/
def envTruthy : Option String → Option String
  | some s => if s = "" then none else some s
  | none => none

/-- `getAiClient` (`src/services/geminiService.ts`): takes
`process.env.API_KEY` when truthy, else `import.meta.env.VITE_API_KEY` when
truthy, then falls back to `process.env.API_KEY` once more; when no key was
found it throws the configuration error, otherwise it builds a client
around the key.  The model returns the chosen key. -/
def getAiClient (env : ServiceEnv) : Except String String :=
  let k1 :=
    match envTruthy env.apiKey with
    | some s => some s
    | none => envTruthy env.viteApiKey
  let k2 :=
    match k1 with
    | some s => some s
    | none => envTruthy env.apiKey
  match k2 with
  | none =>
    .error "API Key is missing. Please check your .env file or environment configuration."
  | some s => .ok s

/-- The `img.replace(/^data:image\/(png|jpeg|jpg);base64,/, "")` step of
both service functions: drops a leading data-URL header for the three
recognised mime types. -/
def stripDataUrlPrefix (img : String) : String :=
  if img.startsWith "data:image/png;base64," then
    img.drop "data:image/png;base64,".length
  else if img.startsWith "data:image/jpeg;base64," then
    img.drop "data:image/jpeg;base64,".length
  else if img.startsWith "data:image/jpg;base64," then
    img.drop "data:image/jpg;base64,".length
  else img

/-- JSON values, as `JSON.parse` can produce them.  Numbers are modelled as
integers, which is enough for the observations made here. -/
inductive Js where
  | null : Js
  | bool : Bool → Js
  | num : Int → Js
  | str : String → Js
  | arr : List Js → Js
  | obj : List (String × Js) → Js

/-- What the analysis code observes of the remote response through
`response.text` followed by `JSON.parse`: the text is absent (or empty,
both falsy for the `!response.text` guard), present but not valid JSON (so
`JSON.parse` throws), or valid JSON decoding to a value. -/
inductive ResponseText where
  | absent : ResponseText
  | malformed : ResponseText
  | json : Js → ResponseText

/-- `analyzeFace` (`src/services/geminiService.ts`): obtains the client
(throwing the configuration error first when the key is missing), strips
the data-URL headers, issues exactly one request, throws when the response
text is absent, re-throws the `JSON.parse` exception when the text is not
valid JSON (the model uses a fixed stand-in message for that exception),
and otherwise returns the decoded value — `JSON.parse(response.text) as
AnalysisResult` is a cast, not a validation, so no shape check happens
locally.  The second component is the log of issued requests, each carrying
its image parts. -/
def analyzeFace (env : ServiceEnv) (base64Images : List String)
    (remote : ResponseText) : Except String Js × List (List String) :=
  match getAiClient env with
  | .error e => (.error e, [])
  | .ok _ =>
    let parts := base64Images.map stripDataUrlPrefix
    match remote with
    | .absent => (.error "No analysis generated.", [parts])
    | .malformed => (.error "SyntaxError: JSON.parse failed", [parts])
    | .json v => (.ok v, [parts])

/-- One part of a render response.  `inlineData` is `some d` when the part
carries inline data `d` (`some ""` standing for a present but falsy/empty
data field), and `none` when `part.inlineData` or its `data` is absent. -/
structure GenPart where
  inlineData : Option String

/-- What `generateHairstyleImage` observes of the render response:
`candidates?.[0]?.content?.parts`, which is either absent (`none`) or a
list of parts. -/
structure GenResponse where
  parts : Option (List GenPart)

/-- The scanning loop of `generateHairstyleImage`: the first part whose
`inlineData` and data are truthy. -/
def firstInlineImage : List GenPart → Option String
  | [] => none
  | p :: rest =>
    match p.inlineData with
    | some d => if d = "" then firstInlineImage rest else some d
    | none => firstInlineImage rest

/-- `generateHairstyleImage` (`src/services/geminiService.ts`): obtains the
client (throwing the configuration error first when the key is missing),
issues exactly one request, fails when the response has no parts, returns
the first inline image found wrapped as a PNG data URL, and fails when no
part carries an image.  The second component is the log of issued requests,
each carrying the stripped base image and the two prompt ingredients. -/
def generateHairstyleImage (env : ServiceEnv) (base64Image : String)
    (hairstyleName : String) (hairstyleDescription : String)
    (remote : GenResponse) : Except String String × List (String × String × String) :=
  match getAiClient env with
  | .error e => (.error e, [])
  | .ok _ =>
    let req := (stripDataUrlPrefix base64Image, hairstyleName, hairstyleDescription)
    match remote.parts with
    | none => (.error "No content in response", [req])
    | some ps =>
      match firstInlineImage ps with
      | some d => (.ok ("data:image/png;base64," ++ d), [req])
      | none => (.error "No image generated in response.", [req])

/-- Field lookup in a decoded JSON object, as property access on the parsed
value. -/
def jsField (fields : List (String × Js)) (k : String) : Option Js :=
  match fields.find? (fun p => p.1 = k) with
  | some p => some p.2
  | none => none

/-- A decoded value that is a non-empty string. -/
def isNonEmptyStringJs : Js → Bool
  | .str s => !(s = "")
  | _ => false

/-- The expected shape of one suggestion record as the specification words
it: an object with non-empty `name`, `description` and `reasoning`
strings. -/
def isSuggestionShape : Js → Bool
  | .obj fields =>
    match jsField fields "name", jsField fields "description",
        jsField fields "reasoning" with
    | some n, some d, some r =>
      isNonEmptyStringJs n && isNonEmptyStringJs d && isNonEmptyStringJs r
    | _, _, _ => false
  | _ => false

/-- The expected shape of the whole analysis payload as the specification
words it: a `faceShape` string plus exactly 5 suggestion records. -/
def expectedAnalysisShape : Js → Bool
  | .obj fields =>
    match jsField fields "faceShape", jsField fields "suggestions" with
    | some (.str _), some (.arr suggestions) =>
      suggestions.length = 5 && suggestions.all isSuggestionShape
    | _, _ => false
  | _ => false

/-- The whitespace class of the `\s` regex escape, restricted to the ASCII
range (the hairstyle names handled here are ASCII). -/
def isJsWhitespace (c : Char) : Bool :=
  c = ' ' || c = '\t' || c = '\n' || c = '\r' ||
    c = Char.ofNat 11 || c = Char.ofNat 12

/-- `String.prototype.replace(/\s+/g, "-")` on a character list: every
maximal run of whitespace becomes a single hyphen.  The flag records
whether the previous character was part of a whitespace run. -/
def collapseWsAux : Bool → List Char → List Char
  | _, [] => []
  | inRun, c :: rest =>
    if isJsWhitespace c then
      if inRun then collapseWsAux true rest
      else '-' :: collapseWsAux true rest
    else c :: collapseWsAux false rest

/-- `name.replace(/\s+/g, "-")`. -/
def replaceWsRuns (s : String) : String :=
  ⟨collapseWsAux false s.data⟩

/-- `String.prototype.toLowerCase` restricted to the ASCII range. -/
def jsToLower (s : String) : String :=
  ⟨s.data.map Char.toLower⟩

/-- The filename passed to `downloadImage` at its call site in
`renderResults` (`src/App.tsx` line 431):
`styleai-${name.replace(/\s+/g, "-").toLowerCase()}.png`. -/
def downloadFilenameOf (hairstyleName : String) : String :=
  "styleai-" ++ jsToLower (replaceWsRuns hairstyleName) ++ ".png"

/-- The filename derivation as the specification words it, for comparison
with `downloadFilenameOf`: the hairstyle name lower-cased, spaces replaced
with hyphens, and a `.png` suffix appended — no prefix. -/
def specFilename (hairstyleName : String) : String :=
  jsToLower ⟨hairstyleName.data.map (fun c => if c = ' ' then '-' else c)⟩ ++ ".png"

/-- Whitespace characters never occur twice in a row. -/
def noWsRun : List Char → Bool
  | c1 :: c2 :: rest =>
    !(isJsWhitespace c1 && isJsWhitespace c2) && noWsRun (c2 :: rest)
  | _ => true

/-- The UI-reachable events of the flow controller.  Button events carry
the guard of the render function that mounts the button (a button can only
be clicked in the app state whose render shows it); resolution events are
the continuations of the asynchronous handlers and may arrive in any state
(the code performs no staleness check), which over-approximates the
reachable behaviours. -/
inductive UIEvent where
  | startCam : UIEvent
  | camGranted : UIEvent
  | camDenied : UIEvent
  | capture : String → UIEvent
  | retake : UIEvent
  | analyze : UIEvent
  | analysisOk : AnalysisResult → UIEvent
  | analysisErr : String → UIEvent
  | toggle : Nat → UIEvent
  | generate : UIEvent
  | generationOk : List GeneratedImage → UIEvent
  | generationErr : String → UIEvent
  | reset : UIEvent

/-- One step of the flow controller under a UI event: the next state and
the analysis requests issued by the step (each request is the image list it
carries).  Guards reflect where each handler is reachable in `src/App.tsx`:
`startCamera` from the idle screen, `capturePhoto` from the camera screen,
`retakePhoto`/`performAnalysis` from the preview screen, `toggleSelection`
through a card of the selection screen (cards exist only for indices below
the suggestion count, and a disabled card swallows the click),
`generateSelected` through the selection screen's enabled generate button,
and `resetApp` wherever a reset control exists (conservatively allowed from
every state).  Resolution events apply their continuation unconditionally,
as the code does. -/
def step (st : AppSt) (e : UIEvent) : AppSt × List (List String) :=
  match e with
  | .startCam => if st.appState = .IDLE then (startCameraInit st, []) else (st, [])
  | .camGranted => (startCameraResolve st, [])
  | .camDenied => (startCameraReject st, [])
  | .capture frame =>
    if st.appState = .CAMERA then (capturePhoto frame st, []) else (st, [])
  | .retake => if st.appState = .PREVIEW then (retakePhoto st, []) else (st, [])
  | .analyze => if st.appState = .PREVIEW then performAnalysisInit st else (st, [])
  | .analysisOk a => (performAnalysisResolve a st, [])
  | .analysisErr m => (performAnalysisReject m st, [])
  | .toggle i =>
    if st.appState = .SELECTION then
      match st.analysisResult with
      | none => (st, [])
      | some ar =>
        if i < ar.suggestions.length then
          if !(st.selectedIndices.contains i) && st.selectedIndices.length ≥ 2 then
            (st, [])
          else
            ({ st with selectedIndices := toggleSelection i st.selectedIndices }, [])
        else (st, [])
    else (st, [])
  | .generate =>
    if st.appState = .SELECTION
        && 0 < st.selectedIndices.length && st.selectedIndices.length ≤ 2 then
      (generateSelectedInit st, [])
    else (st, [])
  | .generationOk imgs => (generateSelectedResolve imgs st, [])
  | .generationErr m => (generateSelectedReject m st, [])
  | .reset => (resetApp st, [])

/-- Running a sequence of UI events from a state, accumulating the analysis
requests issued along the way. -/
def run (st : AppSt) : List UIEvent → AppSt × List (List String)
  | [] => (st, [])
  | e :: rest =>
    let s1 := step st e
    let s2 := run s1.1 rest
    (s2.1, s1.2 ++ s2.2)

/-- The inductive invariant of the flow controller used for the analysis
precondition: on the camera screen the buffer holds at most 2 images, and
on the preview screen it holds exactly 3. -/
@[reducible] def BufferInv (st : AppSt) : Prop :=
  (st.appState = .CAMERA → st.capturedImages.length ≤ 2) ∧
    (st.appState = .PREVIEW → st.capturedImages.length = 3)

/-- A concrete state in the middle of an analysis attempt: three captured
images, `ANALYZING`, with the `analyzeFace` promise still pending. -/
def c3PendingSt : AppSt :=
  { appState := .ANALYZING
    capturedImages := ["front", "left", "right"]
    captureStep := 2
    analysisResult := none
    selectedIndices := []
    generatedImages := []
    errorMsg := none
    streamHeld := false }

/-- A concrete analysis result, standing for the resolution of the
abandoned attempt's pending `analyzeFace` call. -/
def c3StaleAnalysis : AnalysisResult :=
  { faceShape := "Oval"
    suggestions := [{ name := "Buzz Cut", description := "d", reasoning := "r" }] }

/-- A concrete state at the start of a capture sequence: camera screen,
empty buffer, stream held. -/
def c7CamSt : AppSt :=
  { initialAppSt with appState := .CAMERA, streamHeld := true }

/-- A concrete analysis result with the contractual 5 suggestions. -/
def c1Analysis : AnalysisResult :=
  { faceShape := "Oval"
    suggestions :=
      [⟨"Buzz Cut", "d1", "r1"⟩, ⟨"Pompadour", "d2", "r2"⟩,
       ⟨"Quiff", "d3", "r3"⟩, ⟨"Crew Cut", "d4", "r4"⟩,
       ⟨"Fringe", "d5", "r5"⟩] }

/-- A concrete selection screen state with suggestions 0 and 2 selected. -/
def c1St : AppSt :=
  { appState := .SELECTION
    capturedImages := ["front", "left", "right"]
    captureStep := 2
    analysisResult := some c1Analysis
    selectedIndices := [0, 2]
    generatedImages := []
    errorMsg := none
    streamHeld := false }

/-- A render oracle that always fulfils, tagging the URL with the style
name. -/
def c1Render : String → String → String → Except String String :=
  fun _ n _ => Except.ok ("url-" ++ n)

end StyleAI

namespace StyleAI

theorem toggleSelection_length_le (i : Nat) (s : List Nat) (h : s.length ≤ 2) :
    (toggleSelection i s).length ≤ 2 := by
  unfold toggleSelection
  split
  · exact le_trans (List.length_filter_le _ _) h
  · split
    · exact h
    · rename_i h1 h2
      simp only [List.length_append, List.length_singleton]
      omega

theorem toggleFold_length_le (ops : List Nat) :
    ∀ s : List Nat, s.length ≤ 2 →
      (ops.foldl (fun acc j => toggleSelection j acc) s).length ≤ 2 := by
  induction ops with
  | nil => intro s h; simpa using h
  | cons o rest ih =>
    intro s h
    simp only [List.foldl_cons]
    exact ih _ (toggleSelection_length_le o s h)

theorem toggleSelection_twice_mem (i : Nat) (prev : List Nat)
    (h : prev.length ≤ 2) (j : Nat) :
    j ∈ toggleSelection i (toggleSelection i prev) ↔ j ∈ prev := by
  by_cases hc : i ∈ prev
  · rw [show toggleSelection i prev = prev.filter (fun x => x ≠ i) from by
      simp [toggleSelection, hc]]
    have hflt : (prev.filter (fun x => x ≠ i)).length < prev.length :=
      List.length_filter_lt_length_iff_exists.mpr ⟨i, hc, by simp⟩
    have hni : i ∉ prev.filter (fun x => x ≠ i) := by simp
    rw [show toggleSelection i (prev.filter (fun x => x ≠ i)) =
        prev.filter (fun x => x ≠ i) ++ [i] from by
      simp only [ne_eq, decide_not] at hflt
      simp [toggleSelection, hni]
      omega]
    by_cases hj : j = i <;> simp [hj, hc, List.mem_filter]
  · by_cases h2 : prev.length ≥ 2
    · simp [toggleSelection, hc, h2]
    · rw [show toggleSelection i prev = prev ++ [i] from by
        simp [toggleSelection, hc, h2]]
      have happ : i ∈ prev ++ [i] := by simp
      have hall : ∀ a ∈ prev, ¬ a = i := fun a ha hai => hc (hai ▸ ha)
      rw [show toggleSelection i (prev ++ [i]) = prev from by
        simp [toggleSelection, happ]
        exact hall]

/-- C4: toggling the same index twice returns the selection to its prior
set, no sequence of toggles ever grows the selection past 2 indices, and
toggling a third index into a full selection is a no-op rather than an
error. -/
theorem toggleSelection_algebra (prev : List Nat) (i : Nat) (ops : List Nat)
    (h : prev.length ≤ 2) :
    (∀ j, j ∈ toggleSelection i (toggleSelection i prev) ↔ j ∈ prev) ∧
    (ops.foldl (fun s j => toggleSelection j s) []).length ≤ 2 ∧
    (prev.length = 2 → i ∉ prev → toggleSelection i prev = prev) := by
  refine ⟨fun j => toggleSelection_twice_mem i prev h j,
    toggleFold_length_le ops [] (by simp), ?_⟩
  intro h2 hni
  simp [toggleSelection, hni, h2]

theorem toggleSelection_algebra_witness :
    ([0, 1] : List Nat).length ≤ 2 ∧
    ((∀ j, j ∈ toggleSelection 2 (toggleSelection 2 [0, 1]) ↔ j ∈ [0, 1]) ∧
     (([0, 1, 2, 3] : List Nat).foldl (fun s j => toggleSelection j s) []).length ≤ 2 ∧
     (([0, 1] : List Nat).length = 2 → 2 ∉ ([0, 1] : List Nat) →
       toggleSelection 2 [0, 1] = [0, 1])) :=
  ⟨by decide, toggleSelection_algebra [0, 1] 2 [0, 1, 2, 3] (by decide)⟩

/-- C6: a reset from any state empties the image buffer, drops the analysis
result, empties the selection and the generated-image collection, returns
to `IDLE`, and releases the camera stream. -/
theorem resetApp_clears_and_idles (st : AppSt) :
    (resetApp st).capturedImages = [] ∧
    (resetApp st).analysisResult = none ∧
    (resetApp st).selectedIndices = [] ∧
    (resetApp st).generatedImages = [] ∧
    (resetApp st).appState = AppState.IDLE ∧
    (resetApp st).streamHeld = false :=
  ⟨rfl, rfl, rfl, rfl, rfl, rfl⟩

/-- C10: a reset leaves the stored error message untouched while clearing
every other state field and returning to `IDLE`, so a failed run's message
persists in state after the reset. -/
theorem resetApp_keeps_errorMsg (st : AppSt) :
    (resetApp st).errorMsg = st.errorMsg ∧
    (resetApp st).appState = AppState.IDLE ∧
    (resetApp st).capturedImages = [] ∧
    (resetApp st).analysisResult = none ∧
    (resetApp st).selectedIndices = [] ∧
    (resetApp st).generatedImages = [] :=
  ⟨rfl, rfl, rfl, rfl, rfl, rfl⟩

/-- C3: contrary to the claim, the resolution continuation of
`performAnalysis` mutates flow state unconditionally — there is no check
that the call still addresses the active attempt — so after a reset the
stale resolution of the abandoned attempt moves the fresh attempt from
`IDLE` to `SELECTION` and installs the stale result. -/
theorem staleResolutionMutatesState :
    (∀ (st : AppSt) (a : AnalysisResult),
      (performAnalysisResolve a st).appState = AppState.SELECTION ∧
      (performAnalysisResolve a st).analysisResult = some a) ∧
    (resetApp c3PendingSt).appState = AppState.IDLE ∧
    (performAnalysisResolve c3StaleAnalysis (resetApp c3PendingSt)).appState =
      AppState.SELECTION ∧
    (performAnalysisResolve c3StaleAnalysis (resetApp c3PendingSt)).analysisResult =
      some c3StaleAnalysis :=
  ⟨fun _ _ => ⟨rfl, rfl⟩, rfl, rfl, rfl⟩

/-- C7: from an empty buffer on the camera screen with the stream held,
three successful captures leave the buffer holding exactly the three frames
in capture order; the stream is still held and the state still `CAMERA`
after the first two captures, and the third capture releases the stream and
moves to `PREVIEW`. -/
theorem capture_sequence_completes (st : AppSt) (f l r : String)
    (hbuf : st.capturedImages = []) (hcam : st.appState = AppState.CAMERA)
    (hstream : st.streamHeld = true) :
    (capturePhoto f st).appState = AppState.CAMERA ∧
    (capturePhoto f st).streamHeld = true ∧
    (capturePhoto l (capturePhoto f st)).appState = AppState.CAMERA ∧
    (capturePhoto l (capturePhoto f st)).streamHeld = true ∧
    (capturePhoto r (capturePhoto l (capturePhoto f st))).capturedImages = [f, l, r] ∧
    (capturePhoto r (capturePhoto l (capturePhoto f st))).appState = AppState.PREVIEW ∧
    (capturePhoto r (capturePhoto l (capturePhoto f st))).streamHeld = false := by
  simp [capturePhoto, stopCamera, hbuf, hcam, hstream]

/-- C8: when neither environment variable provides a (non-empty) API key,
both service calls fail with the configuration error and their request logs
are empty — the remote service is never contacted without a credential. -/
theorem missing_key_blocks_network (env : ServiceEnv) (imgs : List String)
    (resp : ResponseText) (img nm ds : String) (gresp : GenResponse)
    (hk1 : envTruthy env.apiKey = none) (hk2 : envTruthy env.viteApiKey = none) :
    analyzeFace env imgs resp =
      (Except.error
        "API Key is missing. Please check your .env file or environment configuration.",
        []) ∧
    generateHairstyleImage env img nm ds gresp =
      (Except.error
        "API Key is missing. Please check your .env file or environment configuration.",
        []) := by
  have hclient : getAiClient env =
      Except.error
        "API Key is missing. Please check your .env file or environment configuration." := by
    simp [getAiClient, hk1, hk2]
  exact ⟨by simp [analyzeFace, hclient], by simp [generateHairstyleImage, hclient]⟩

theorem missing_key_blocks_network_witness :
    (envTruthy (ServiceEnv.mk none (some "")).apiKey = none ∧
     envTruthy (ServiceEnv.mk none (some "")).viteApiKey = none) ∧
    (analyzeFace ⟨none, some ""⟩ ["img"] ResponseText.absent =
      (Except.error
        "API Key is missing. Please check your .env file or environment configuration.",
        []) ∧
     generateHairstyleImage ⟨none, some ""⟩ "img" "Buzz Cut" "short"
        ⟨some [⟨some "payload"⟩]⟩ =
      (Except.error
        "API Key is missing. Please check your .env file or environment configuration.",
        [])) :=
  ⟨⟨by decide, by decide⟩,
    missing_key_blocks_network ⟨none, some ""⟩ ["img"] ResponseText.absent
      "img" "Buzz Cut" "short" ⟨some [⟨some "payload"⟩]⟩ (by decide) (by decide)⟩

/-- C2 counterexample: with a key present, a response whose text decodes as
the JSON object with no fields is returned as a success by `analyzeFace`
even though it is not of the expected shape — the claimed shape validation
does not happen. -/
theorem analyzeFace_returns_unvalidated_payload :
    (analyzeFace ⟨some "k", none⟩ ["img"] (ResponseText.json (Js.obj []))).1 =
      Except.ok (Js.obj []) ∧
    expectedAnalysisShape (Js.obj []) = false := by
  constructor
  · simp [analyzeFace, getAiClient, envTruthy]
  · rfl

/-- C2 (amended): with a key present, `analyzeFace` issues exactly one
request; it fails exactly when the response carries no text payload or text
that is not valid JSON, and otherwise returns the decoded value as-is — the
expected 5-suggestion shape is not validated locally, only parse success
counts. -/
theorem analyzeFace_all_or_nothing (env : ServiceEnv) (imgs : List String)
    (resp : ResponseText) (k : String) (hk : getAiClient env = Except.ok k) :
    (analyzeFace env imgs resp).2 = [imgs.map stripDataUrlPrefix] ∧
    (∀ v, resp = ResponseText.json v → (analyzeFace env imgs resp).1 = Except.ok v) ∧
    (resp = ResponseText.absent →
      (analyzeFace env imgs resp).1 = Except.error "No analysis generated.") ∧
    (resp = ResponseText.malformed →
      ∃ e, (analyzeFace env imgs resp).1 = Except.error e) := by
  cases resp <;> simp [analyzeFace, hk]

theorem analyzeFace_all_or_nothing_witness :
    getAiClient ⟨some "k", none⟩ = Except.ok "k" ∧
    ((analyzeFace ⟨some "k", none⟩ ["data:image/png;base64,abc"]
        (ResponseText.json Js.null)).2 =
      [List.map stripDataUrlPrefix ["data:image/png;base64,abc"]] ∧
     (∀ v, ResponseText.json Js.null = ResponseText.json v →
       (analyzeFace ⟨some "k", none⟩ ["data:image/png;base64,abc"]
         (ResponseText.json Js.null)).1 = Except.ok v) ∧
     (ResponseText.json Js.null = ResponseText.absent →
       (analyzeFace ⟨some "k", none⟩ ["data:image/png;base64,abc"]
         (ResponseText.json Js.null)).1 = Except.error "No analysis generated.") ∧
     (ResponseText.json Js.null = ResponseText.malformed →
       ∃ e, (analyzeFace ⟨some "k", none⟩ ["data:image/png;base64,abc"]
         (ResponseText.json Js.null)).1 = Except.error e)) :=
  ⟨by rfl,
    analyzeFace_all_or_nothing ⟨some "k", none⟩ ["data:image/png;base64,abc"]
      (ResponseText.json Js.null) "k" (by rfl)⟩

/-- C9 counterexample: the filename actually used for the download of the
"Buzz Cut" render is `styleai-buzz-cut.png`, while the claimed derivation
(lower-casing, spaces to hyphens, `.png` suffix) yields `buzz-cut.png` —
the claim misses the `styleai-` prefix. -/
theorem downloadFilename_prefix_mismatch :
    downloadFilenameOf "Buzz Cut" = "styleai-buzz-cut.png" ∧
    specFilename "Buzz Cut" = "buzz-cut.png" ∧
    downloadFilenameOf "Buzz Cut" ≠ specFilename "Buzz Cut" := by
  refine ⟨?_, ?_, ?_⟩ <;> decide

theorem noWsRun_tail (c : Char) (rest : List Char)
    (h : noWsRun (c :: rest) = true) : noWsRun rest = true := by
  cases rest with
  | nil => rfl
  | cons c2 r2 =>
    simp only [noWsRun, Bool.and_eq_true] at h
    exact h.2

theorem collapseWsAux_eq_map (l : List Char) (h : noWsRun l = true) :
    collapseWsAux false l =
      l.map (fun c => if isJsWhitespace c then '-' else c) := by
  induction l with
  | nil => rfl
  | cons c rest ih =>
    have hrest : noWsRun rest = true := noWsRun_tail c rest h
    by_cases hw : isJsWhitespace c
    · have htail : collapseWsAux true rest =
          rest.map (fun c => if isJsWhitespace c then '-' else c) := by
        cases rest with
        | nil => rfl
        | cons c2 r2 =>
          have hc2 : ¬ isJsWhitespace c2 = true := by
            intro hx
            simp only [noWsRun, Bool.and_eq_true] at h
            obtain ⟨h1, h2⟩ := h
            rw [hw, hx] at h1
            simp at h1
          have hflag : collapseWsAux true (c2 :: r2) = collapseWsAux false (c2 :: r2) := by
            simp [collapseWsAux, hc2]
          rw [hflag, ih hrest]
      simp [collapseWsAux, hw, htail]
    · simp [collapseWsAux, hw, ih hrest]

/-- C9 (amended): for hairstyle names whose whitespace consists of
non-adjacent plain spaces, the download filename is the claimed derivation
(spaces to hyphens, lower-cased, `.png` appended) additionally prefixed
with `styleai-`, which the call site always prepends. -/
theorem downloadFilename_amended (name : String)
    (hrun : noWsRun name.data = true)
    (hsp : ∀ c ∈ name.data, isJsWhitespace c → c = ' ') :
    downloadFilenameOf name = "styleai-" ++ specFilename name := by
  have hmap : List.map Char.toLower
      (List.map (fun c => if isJsWhitespace c then '-' else c) name.data) =
      List.map Char.toLower
      (List.map (fun c => if c = ' ' then '-' else c) name.data) := by
    rw [List.map_map, List.map_map]
    apply List.map_congr_left
    intro c hc
    by_cases hw : isJsWhitespace c
    · have hcs : c = ' ' := hsp c hc hw
      subst hcs
      decide
    · have hcs : ¬ c = ' ' := fun hcc => hw (by simp [isJsWhitespace, hcc])
      simp [Function.comp, hw, hcs]
  have h1 : jsToLower (replaceWsRuns name) =
      jsToLower ⟨List.map (fun c => if c = ' ' then '-' else c) name.data⟩ := by
    unfold replaceWsRuns jsToLower
    rw [collapseWsAux_eq_map name.data hrun]
    exact congrArg String.mk hmap
  unfold downloadFilenameOf specFilename
  rw [h1, String.append_assoc]

theorem downloadFilename_amended_witness :
    (noWsRun ("Buzz Cut" : String).data = true ∧
      ∀ c ∈ ("Buzz Cut" : String).data, isJsWhitespace c → c = ' ') ∧
    downloadFilenameOf "Buzz Cut" = "styleai-" ++ specFilename "Buzz Cut" :=
  ⟨⟨by decide, by decide⟩,
    downloadFilename_amended "Buzz Cut" (by decide) (by decide)⟩

theorem capture_sequence_completes_witness :
    (c7CamSt.capturedImages = [] ∧ c7CamSt.appState = AppState.CAMERA ∧
      c7CamSt.streamHeld = true) ∧
    ((capturePhoto "f" c7CamSt).appState = AppState.CAMERA ∧
     (capturePhoto "f" c7CamSt).streamHeld = true ∧
     (capturePhoto "l" (capturePhoto "f" c7CamSt)).appState = AppState.CAMERA ∧
     (capturePhoto "l" (capturePhoto "f" c7CamSt)).streamHeld = true ∧
     (capturePhoto "r" (capturePhoto "l" (capturePhoto "f" c7CamSt))).capturedImages =
       ["f", "l", "r"] ∧
     (capturePhoto "r" (capturePhoto "l" (capturePhoto "f" c7CamSt))).appState =
       AppState.PREVIEW ∧
     (capturePhoto "r" (capturePhoto "l" (capturePhoto "f" c7CamSt))).streamHeld = false) :=
  ⟨⟨rfl, rfl, rfl⟩, capture_sequence_completes c7CamSt "f" "l" "r" rfl rfl rfl⟩

theorem step_preserves_BufferInv (st : AppSt) (e : UIEvent)
    (h : BufferInv st) :
    BufferInv (step st e).1 ∧ ∀ c ∈ (step st e).2, c.length = 3 := by
  obtain ⟨h1, h2⟩ := h
  cases e with
  | startCam =>
    by_cases hs : st.appState = .IDLE
    · simp only [step, if_pos hs]
      exact And.intro (And.intro (fun _ => Nat.zero_le 2) (fun hx => nomatch hx))
        (fun c hc => nomatch hc)
    · simp only [step, if_neg hs]
      exact ⟨⟨h1, h2⟩, fun c hc => nomatch hc⟩
  | camGranted =>
    exact ⟨⟨h1, h2⟩, fun c hc => nomatch hc⟩
  | camDenied =>
    exact And.intro (And.intro (fun hx => nomatch hx) (fun hx => nomatch hx))
      (fun c hc => nomatch hc)
  | capture frame =>
    by_cases hs : st.appState = .CAMERA
    · simp only [step, if_pos hs]
      refine ⟨?_, fun c hc => nomatch hc⟩
      unfold capturePhoto
      by_cases h3 : (st.capturedImages ++ [frame]).length = 3
      · simp only [if_pos h3]
        exact And.intro (fun hx => nomatch hx) (fun _ => h3)
      · simp only [if_neg h3]
        have hle : st.capturedImages.length ≤ 2 := h1 hs
        constructor
        · intro _
          simp only [List.length_append, List.length_singleton] at h3 ⊢
          omega
        · intro hx
          rw [hs] at hx
          exact nomatch hx
    · simp only [step, if_neg hs]
      exact ⟨⟨h1, h2⟩, fun c hc => nomatch hc⟩
  | retake =>
    by_cases hs : st.appState = .PREVIEW
    · simp only [step, if_pos hs]
      exact And.intro (And.intro (fun _ => Nat.zero_le 2) (fun hx => nomatch hx))
        (fun c hc => nomatch hc)
    · simp only [step, if_neg hs]
      exact ⟨⟨h1, h2⟩, fun c hc => nomatch hc⟩
  | analyze =>
    by_cases hs : st.appState = .PREVIEW
    · simp only [step, if_pos hs]
      have hlen : st.capturedImages.length = 3 := h2 hs
      unfold performAnalysisInit
      rw [if_neg (by omega)]
      refine ⟨And.intro (fun hx => nomatch hx) (fun hx => nomatch hx), ?_⟩
      intro c hc
      have hceq : c = st.capturedImages := List.mem_singleton.mp hc
      rw [hceq]
      exact hlen
    · simp only [step, if_neg hs]
      exact ⟨⟨h1, h2⟩, fun c hc => nomatch hc⟩
  | analysisOk a =>
    exact And.intro (And.intro (fun hx => nomatch hx) (fun hx => nomatch hx))
      (fun c hc => nomatch hc)
  | analysisErr m =>
    exact And.intro (And.intro (fun hx => nomatch hx) (fun hx => nomatch hx))
      (fun c hc => nomatch hc)
  | toggle i =>
    by_cases hs : st.appState = .SELECTION
    · simp only [step, if_pos hs]
      cases har : st.analysisResult with
      | none => exact ⟨⟨h1, h2⟩, fun c hc => nomatch hc⟩
      | some ar =>
        dsimp only
        by_cases hi : i < ar.suggestions.length
        · rw [if_pos hi]
          by_cases hd : (!st.selectedIndices.contains i &&
              decide (st.selectedIndices.length ≥ 2)) = true
          · rw [if_pos hd]
            exact ⟨⟨h1, h2⟩, fun c hc => nomatch hc⟩
          · rw [if_neg hd]
            refine ⟨⟨fun hx => ?_, fun hx => ?_⟩, fun c hc => nomatch hc⟩
            · rw [hs] at hx; exact nomatch hx
            · rw [hs] at hx; exact nomatch hx
        · rw [if_neg hi]
          exact ⟨⟨h1, h2⟩, fun c hc => nomatch hc⟩
    · simp only [step, if_neg hs]
      exact ⟨⟨h1, h2⟩, fun c hc => nomatch hc⟩
  | generate =>
    simp only [step]
    by_cases hg : (decide (st.appState = .SELECTION) &&
        decide (0 < st.selectedIndices.length) &&
          decide (st.selectedIndices.length ≤ 2)) = true
    · rw [if_pos hg]
      refine ⟨?_, fun c hc => nomatch hc⟩
      have hsel : st.appState = .SELECTION := by
        simp only [Bool.and_eq_true, decide_eq_true_eq] at hg
        exact hg.1.1
      unfold generateSelectedInit
      cases har : st.analysisResult with
      | none => exact ⟨h1, h2⟩
      | some ar =>
        dsimp only
        by_cases h0 : st.selectedIndices.length = 0
        · rw [if_pos h0]
          exact ⟨h1, h2⟩
        · rw [if_neg h0]
          exact And.intro (fun hx => nomatch hx) (fun hx => nomatch hx)
    · rw [if_neg hg]
      exact ⟨⟨h1, h2⟩, fun c hc => nomatch hc⟩
  | generationOk imgs =>
    exact And.intro (And.intro (fun hx => nomatch hx) (fun hx => nomatch hx))
      (fun c hc => nomatch hc)
  | generationErr m =>
    exact And.intro (And.intro (fun hx => nomatch hx) (fun hx => nomatch hx))
      (fun c hc => nomatch hc)
  | reset =>
    exact And.intro (And.intro (fun hx => nomatch hx) (fun hx => nomatch hx))
      (fun c hc => nomatch hc)

theorem run_preserves_BufferInv (evts : List UIEvent) :
    ∀ st : AppSt, BufferInv st →
      BufferInv (run st evts).1 ∧ ∀ c ∈ (run st evts).2, c.length = 3 := by
  induction evts with
  | nil =>
    intro st h
    exact And.intro h (fun c hc => nomatch hc)
  | cons e rest ih =>
    intro st h
    have hstep := step_preserves_BufferInv st e h
    have hrest := ih (step st e).1 hstep.1
    refine ⟨hrest.1, ?_⟩
    intro c hc
    simp only [run, List.mem_append] at hc
    rcases hc with hc | hc
    · exact hstep.2 c hc
    · exact hrest.2 c hc

/-- C5: along every UI-reachable event sequence from the initial state,
every analysis request issued by the flow controller carries exactly 3
images — an invocation of the analysis with fewer than 3 buffered images is
unreachable. -/
theorem analysis_requires_three_images (evts : List UIEvent)
    (c : List String) (hc : c ∈ (run initialAppSt evts).2) :
    c.length = 3 :=
  (run_preserves_BufferInv evts initialAppSt
    (And.intro (fun hx => nomatch hx) (fun hx => nomatch hx))).2 c hc

theorem filterByIndex_length {α : Type} (keep : Nat → Bool) (l : List α) :
    ∀ i, (filterByIndex keep l i).length =
      ((List.range' i l.length).filter keep).length := by
  induction l with
  | nil => intro i; rfl
  | cons a rest ih =>
    intro i
    simp only [List.length_cons, List.range'_succ, List.filter_cons]
    by_cases hk : keep i = true
    · simp only [filterByIndex, hk, if_true, List.length_cons, ih (i + 1)]
    · simp only [filterByIndex, hk, if_false, Bool.false_eq_true, ih (i + 1)]

theorem length_selectedSuggestionsOf (suggestions : List HairstyleSuggestion)
    (sel : List Nat) (hnd : sel.Nodup)
    (hlt : ∀ i ∈ sel, i < suggestions.length) :
    (selectedSuggestionsOf suggestions sel).length = sel.length := by
  rw [selectedSuggestionsOf, filterByIndex_length, ← List.range_eq_range']
  have hperm : List.Perm
      ((List.range suggestions.length).filter (fun i => sel.contains i)) sel := by
    apply (List.perm_ext_iff_of_nodup
      (List.Nodup.filter _ (List.nodup_range _)) hnd).mpr
    intro a
    simp [List.mem_filter, List.mem_range]
    intro hx
    exact hlt a hx
  exact hperm.length_eq

theorem promiseAll_ok_forall {α : Type} :
    ∀ (rs : List (Except String α)) (ys : List α), promiseAll rs = Except.ok ys →
      ∀ r ∈ rs, ∃ a, r = Except.ok a := by
  intro rs
  induction rs with
  | nil => intro ys _ r hr; exact absurd hr (List.not_mem_nil r)
  | cons r0 rest ih =>
    intro ys h r hr
    cases r0 with
    | ok a =>
      simp only [promiseAll] at h
      cases hrest : promiseAll rest with
      | ok l =>
        rcases List.mem_cons.mp hr with rfl | hr2
        · exact ⟨a, rfl⟩
        · exact ih l hrest r hr2
      | error e =>
        rw [hrest] at h
        exact nomatch h
    | error e =>
      simp only [promiseAll] at h
      exact nomatch h

theorem promiseAll_error_exists {α : Type} :
    ∀ (rs : List (Except String α)) (e : String), promiseAll rs = Except.error e →
      ∃ r ∈ rs, ∃ msg, r = Except.error msg := by
  intro rs
  induction rs with
  | nil => intro e h; exact nomatch h
  | cons r0 rest ih =>
    intro e h
    cases r0 with
    | error e0 => exact ⟨Except.error e0, List.mem_cons_self _ _, e0, rfl⟩
    | ok a =>
      simp only [promiseAll] at h
      cases hrest : promiseAll rest with
      | ok l =>
        rw [hrest] at h
        exact nomatch h
      | error e2 =>
        obtain ⟨r, hr, msg, hmsg⟩ := ih e2 hrest
        exact ⟨r, List.mem_cons_of_mem _ hr, msg, hmsg⟩

theorem promiseAll_map_names {α β γ : Type} (g : α → Except String β)
    (f : β → γ) (k : α → γ)
    (hgk : ∀ x b, g x = Except.ok b → f b = k x) :
    ∀ (xs : List α) (ys : List β), promiseAll (xs.map g) = Except.ok ys →
      ys.map f = xs.map k := by
  intro xs
  induction xs with
  | nil =>
    intro ys h
    simp only [List.map_nil, promiseAll, Except.ok.injEq] at h
    rw [← h]
    rfl
  | cons x rest ih =>
    intro ys h
    simp only [List.map_cons] at h
    cases hgx : g x with
    | error e =>
      rw [hgx] at h
      simp only [promiseAll] at h
      exact nomatch h
    | ok b =>
      rw [hgx] at h
      simp only [promiseAll] at h
      cases hrest : promiseAll (rest.map g) with
      | error e =>
        rw [hrest] at h
        exact nomatch h
      | ok l =>
        rw [hrest] at h
        simp only [Except.map, Except.ok.injEq] at h
        rw [← h]
        simp only [List.map_cons]
        rw [hgk x b hgx, ih l hrest]

theorem analysis_requires_three_images_witness :
    ["f", "l", "r"] ∈ (run initialAppSt
      [UIEvent.startCam, UIEvent.camGranted, UIEvent.capture "f",
       UIEvent.capture "l", UIEvent.capture "r", UIEvent.analyze]).2 ∧
    (["f", "l", "r"] : List String).length = 3 :=
  ⟨by decide,
    analysis_requires_three_images
      [UIEvent.startCam, UIEvent.camGranted, UIEvent.capture "f",
       UIEvent.capture "l", UIEvent.capture "r", UIEvent.analyze]
      ["f", "l", "r"] (by decide)⟩

/-- C1: with an analysis result present and a valid selection of size
1 ≤ n ≤ 2, `generateSelected` issues exactly n render calls, one per
selected suggestion; when all n fulfil, the state is `RESULTS` and the
generated images are exactly n entries whose `hairstyleName` matches the
selected suggestions in index order; when any single render call rejects,
the state is `ERROR` and the generated-image collection is unchanged. -/
theorem generateSelected_all_or_nothing (st : AppSt) (ar : AnalysisResult)
    (render : String → String → String → Except String String)
    (har : st.analysisResult = some ar)
    (hnd : st.selectedIndices.Nodup)
    (hlt : ∀ i ∈ st.selectedIndices, i < ar.suggestions.length)
    (hn1 : 1 ≤ st.selectedIndices.length)
    (hn2 : st.selectedIndices.length ≤ 2) :
    (generateSelectedRun render st).2 = st.selectedIndices.length ∧
    ((∀ s ∈ selectedSuggestionsOf ar.suggestions st.selectedIndices,
        ∃ url, render (st.capturedImages.headD "") s.name s.description =
          Except.ok url) →
      (generateSelectedRun render st).1.appState = AppState.RESULTS ∧
      (generateSelectedRun render st).1.generatedImages.length =
        st.selectedIndices.length ∧
      (generateSelectedRun render st).1.generatedImages.map
          (fun g => g.hairstyleName) =
        (selectedSuggestionsOf ar.suggestions st.selectedIndices).map
          (fun s => s.name)) ∧
    ((∃ s ∈ selectedSuggestionsOf ar.suggestions st.selectedIndices,
        ∃ e, render (st.capturedImages.headD "") s.name s.description =
          Except.error e) →
      (generateSelectedRun render st).1.appState = AppState.ERROR ∧
      (generateSelectedRun render st).1.generatedImages = st.generatedImages) := by
  have h0 : ¬ st.selectedIndices.length = 0 := by omega
  have hcount := length_selectedSuggestionsOf ar.suggestions st.selectedIndices hnd hlt
  have heq : generateSelectedRun render st =
      (match promiseAll ((selectedSuggestionsOf ar.suggestions st.selectedIndices).map
          (fun s => (render (st.capturedImages.headD "") s.name s.description).map
            (fun url => ({ hairstyleName := s.name, imageUrl := url } : GeneratedImage)))) with
       | .ok images =>
         ({ st with generatedImages := images, appState := AppState.RESULTS },
           (selectedSuggestionsOf ar.suggestions st.selectedIndices).length)
       | .error e =>
         ({ st with errorMsg := some e, appState := AppState.ERROR },
           (selectedSuggestionsOf ar.suggestions st.selectedIndices).length)) := by
    simp only [generateSelectedRun, har]
    rw [if_neg h0]
  rw [heq]
  have hgk : ∀ (s : HairstyleSuggestion) (b : GeneratedImage),
      (render (st.capturedImages.headD "") s.name s.description).map
        (fun url => ({ hairstyleName := s.name, imageUrl := url } : GeneratedImage)) =
        Except.ok b →
      b.hairstyleName = s.name := by
    intro s b hb
    cases hr : render (st.capturedImages.headD "") s.name s.description with
    | error e => rw [hr] at hb; exact nomatch hb
    | ok url =>
      rw [hr] at hb
      simp only [Except.map, Except.ok.injEq] at hb
      rw [← hb]
  cases hpa : promiseAll ((selectedSuggestionsOf ar.suggestions st.selectedIndices).map
      (fun s => (render (st.capturedImages.headD "") s.name s.description).map
        (fun url => ({ hairstyleName := s.name, imageUrl := url } : GeneratedImage)))) with
  | ok images =>
    refine ⟨hcount, fun hall => ⟨rfl, ?_, ?_⟩, fun hfail => ?_⟩
    · have hnames := promiseAll_map_names _ (fun g => g.hairstyleName)
        (fun s => s.name) hgk
        (selectedSuggestionsOf ar.suggestions st.selectedIndices) images hpa
      have hlenmap := congrArg List.length hnames
      simp only [List.length_map] at hlenmap
      rw [hlenmap, hcount]
    · exact promiseAll_map_names _ (fun g => g.hairstyleName)
        (fun s => s.name) hgk
        (selectedSuggestionsOf ar.suggestions st.selectedIndices) images hpa
    · exfalso
      obtain ⟨s, hs, e, he⟩ := hfail
      obtain ⟨b, hb⟩ := promiseAll_ok_forall _ images hpa _
        (List.mem_map_of_mem _ hs)
      rw [he] at hb
      exact nomatch hb
  | error e =>
    refine ⟨hcount, fun hall => ?_, fun _ => ⟨rfl, rfl⟩⟩
    exfalso
    obtain ⟨r, hr, msg, hmsg⟩ := promiseAll_error_exists _ e hpa
    obtain ⟨s, hs, hgs⟩ := List.mem_map.mp hr
    obtain ⟨url, hurl⟩ := hall s hs
    rw [hmsg] at hgs
    rw [hurl] at hgs
    exact nomatch hgs

theorem generateSelected_all_or_nothing_witness :
    (c1St.analysisResult = some c1Analysis ∧
     c1St.selectedIndices.Nodup ∧
     (∀ i ∈ c1St.selectedIndices, i < c1Analysis.suggestions.length) ∧
     1 ≤ c1St.selectedIndices.length ∧ c1St.selectedIndices.length ≤ 2) ∧
    ((generateSelectedRun c1Render c1St).2 = c1St.selectedIndices.length ∧
     ((∀ s ∈ selectedSuggestionsOf c1Analysis.suggestions c1St.selectedIndices,
         ∃ url, c1Render (c1St.capturedImages.headD "") s.name s.description =
           Except.ok url) →
       (generateSelectedRun c1Render c1St).1.appState = AppState.RESULTS ∧
       (generateSelectedRun c1Render c1St).1.generatedImages.length =
         c1St.selectedIndices.length ∧
       (generateSelectedRun c1Render c1St).1.generatedImages.map
           (fun g => g.hairstyleName) =
         (selectedSuggestionsOf c1Analysis.suggestions c1St.selectedIndices).map
           (fun s => s.name)) ∧
     ((∃ s ∈ selectedSuggestionsOf c1Analysis.suggestions c1St.selectedIndices,
         ∃ e, c1Render (c1St.capturedImages.headD "") s.name s.description =
           Except.error e) →
       (generateSelectedRun c1Render c1St).1.appState = AppState.ERROR ∧
       (generateSelectedRun c1Render c1St).1.generatedImages =
         c1St.generatedImages)) :=
  ⟨⟨rfl, by decide, by decide, by decide, by decide⟩,
    generateSelected_all_or_nothing c1St c1Analysis c1Render rfl
      (by decide) (by decide) (by decide) (by decide)⟩

end StyleAI
